import Mathlib

/-!
Shallow embedding of src/src/core/dns/nm-dns-dnsconfd.c, the dnsconfd DNS plugin of
NetworkManager.  The pure message-building helpers of the C file become Lean functions on
explicit configuration records; the stateful plugin object (the NMDnsDnsconfdPrivate
struct) becomes an explicit state record together with a step function over the
asynchronous events the plugin reacts to (update invocations, D-Bus name-owner signals,
name-owner lookup completions, RPC completions, stop).  Collaborator code that lives
outside the shown file (the domain-string parser, the nameserver URI parser, the GLib
transport) is either modelled from the specification, carried as data on the input
records, or abstracted as a function parameter, as documented at each definition.
-/

namespace Dnsconfd

/-- Address family value AF_UNSPEC, passed by parse_global_config when appending global
servers. -/
def AF_UNSPEC : Int := 0

/-- Modelled from the spec: the domain parser (nm_utils_parse_dns_domain, outside the
shown source file) classifies each configured domain entry as routing-only or
search-plus-routing per its syntactic marker, a leading tilde, and yields the bare
domain name together with the routing flag. -/
def nm_utils_parse_dns_domain (domain : String) : String × Bool :=
  match domain.data with
  | c :: rest => if c = '~' then (String.mk rest, true) else (domain, false)
  | [] => (domain, false)

/-- One advertised route of an interface, as consumed by get_networks.  The address
formatting done by inet_ntop in C is external; the model carries the already formatted
address string.  The comparison of table_coerced with NM_DNS_ROUTES_FWMARK_TABLE_PRIO is
carried as the boolean table_is_fwmark. -/
structure RouteEntry where
  network_addr : String
  plen : Nat
  is_default : Bool
  table_is_fwmark : Bool
deriving DecidableEq, Repr

/-- One per-interface DNS configuration entry (NMDnsConfigIPData plus the values that the
C code retrieves from its l3cd object and from the manager/platform collaborators:
searches, domains, nameservers, best-default-route flag, routes, interface name and
connection metadata). -/
structure NMDnsConfigIPData where
  addr_family : Int
  searches : List String
  domains : List String
  nameservers : List String
  has_best_default_route : Bool
  routes : List RouteEntry
  ifname : Option String
  connection_id : Option String
  connection_uuid : Option String
  dbus_path : Option String
deriving DecidableEq, Repr

/-- One domain entry of the global DNS configuration (NMGlobalDnsDomain): a name and an
optional server-string list; nm_global_dns_domain_get_servers returns NULL when the
domain has no servers, modelled as none. -/
structure NMGlobalDnsDomain where
  name : String
  servers : Option (List String)
deriving DecidableEq, Repr

/-- The optional global DNS configuration (NMGlobalDnsConfig) as read through its
accessors: search suffixes, certification authority, resolve mode and the domain list. -/
structure NMGlobalDnsConfig where
  searches : Option (List String)
  certification_authority : Option String
  resolve_mode : Nat
  domains : List NMGlobalDnsDomain
deriving DecidableEq, Repr

/-- Result of validating one nameserver string (NMDnsServer as filled by
nm_dns_uri_parse): address family, raw address bytes, whether the scheme is
NM_DNS_URI_SCHEME_TLS, and the optional TLS server name. -/
structure NMDnsServer where
  addr_family : Int
  addr : List Nat
  scheme_tls : Bool
  servername : Option String
deriving DecidableEq, Repr

/-- Modelled from the spec: nm_dns_uri_parse (outside the shown source file) validates
one nameserver string into an NMDnsServer; invalid strings are rejected.  The spec fixes
no full grammar, so the model keeps the raw string bytes as the address and treats the
empty string as a representative invalid input, which any address grammar rejects. -/
def nm_dns_uri_parse_model (addr_family : Int) (s : String) : Option NMDnsServer :=
  if s.isEmpty then
    none
  else
    some { addr_family := addr_family
           addr := s.toList.map Char.toNat
           scheme_tls := false
           servername := none }

/-- One entry of the outbound update message: the a{sv} dictionary built by
server_builder_append_base and optionally extended by
server_builder_append_interface_info.  A key that the C code does not add is none. -/
structure WireRecord where
  address : List Nat
  protocol_tls : Bool
  name : Option String
  routing_domains : Option (List String)
  search_domains : Option (List String)
  ca : Option String
  connection_id : Option String
  connection_uuid : Option String
  connection_object : Option String
  interface : Option String
  networks : Option (List String)
deriving DecidableEq, Repr

/-- The full outbound message: the ordered WireRecord sequence plus the trailing
resolve-mode value of the (aa{sv}u) tuple built by update. -/
structure UpdateMessage where
  records : List WireRecord
  resolve_mode : Nat
deriving DecidableEq, Repr

/-- Translation of is_default_interface_explicit: scan the searches (and only the
searches) of every interface for an entry whose parsed domain name equals ".". -/
def is_default_interface_explicit (ip_data_lst : List NMDnsConfigIPData) : Bool :=
  ip_data_lst.any fun ip_data =>
    ip_data.searches.any fun d => (nm_utils_parse_dns_domain d).1 == "."

/-- Translation of the final g_ptr_array_free calls of gather_interface_domains and
get_networks: an array holding only the NULL terminator is returned as NULL. -/
def listToOpt (l : List String) : Option (List String) :=
  if l.isEmpty then none else some l

/-- Translation of gather_interface_domains: searches are used when non-empty, otherwise
the plain domains; every parsed entry goes to the routing list, non-routing entries also
to the search list; when the default domain is not explicit and the interface holds the
best default route, "." is appended to the routing list; empty arrays become NULL. -/
def gather_interface_domains (ip_data : NMDnsConfigIPData) (is_default_explicit : Bool) :
    Option (List String) × Option (List String) :=
  let strv_domains := if ip_data.searches.isEmpty then ip_data.domains else ip_data.searches
  let parsed := strv_domains.map nm_utils_parse_dns_domain
  let routing0 := parsed.map Prod.fst
  let search := (parsed.filter fun p => !p.2).map Prod.fst
  let routing :=
    if !is_default_explicit && ip_data.has_best_default_route then routing0 ++ ["."]
    else routing0
  (listToOpt routing, listToOpt search)

/-- Translation of get_networks: every route of the interface that is neither a default
route nor tagged with the DNS fwmark routing table is formatted as address/prefixlen; an
empty array becomes NULL. -/
def get_networks (ip_data : NMDnsConfigIPData) : Option (List String) :=
  let l := (ip_data.routes.filter fun r => !r.is_default && !r.table_is_fwmark).map
    fun r => r.network_addr ++ "/" ++ toString r.plen
  listToOpt l

/-- Translation of server_builder_append_base: validate the nameserver string with the
URI parser; on failure return none (the C function returns FALSE and opens no record);
on success produce the base record with address bytes, TLS protocol marker, optional
server name, the given routing/search domain lists and the optional CA. -/
def server_builder_append_base (uri_parse : Int → String → Option NMDnsServer)
    (address_family : Int) (address_string : String)
    (routing_domains search_domains : Option (List String)) (ca : Option String) :
    Option WireRecord :=
  match uri_parse address_family address_string with
  | none => none
  | some dns_server =>
      some { address := dns_server.addr
             protocol_tls := dns_server.scheme_tls
             name := dns_server.servername
             routing_domains := routing_domains
             search_domains := search_domains
             ca := ca
             connection_id := none
             connection_uuid := none
             connection_object := none
             interface := none
             networks := none }

/-- Translation of server_builder_append_interface_info: extend a base record with the
per-interface keys, each added only when its value is present. -/
def server_builder_append_interface_info (base : WireRecord) (interface : Option String)
    (networks : Option (List String)) (connection_id connection_uuid dbus_path : Option String) :
    WireRecord :=
  { base with
    connection_id := connection_id
    connection_uuid := connection_uuid
    connection_object := dbus_path
    interface := interface
    networks := networks }

/-- Translation of parse_global_config: read the CA and resolve mode from the global
configuration; for every domain whose server list is not NULL, map the sentinel name "*"
to the routing domain "." and append one base record per server string that the URI
parser accepts, carrying the global searches and CA. -/
def parse_global_config (uri_parse : Int → String → Option NMDnsServer)
    (global_config : NMGlobalDnsConfig) : List WireRecord × Nat × Option String :=
  let ca := global_config.certification_authority
  let resolve_mode := global_config.resolve_mode
  let records := global_config.domains.flatMap fun domain =>
    match domain.servers with
    | none => []
    | some servers =>
        let routing_domains := [if domain.name == "*" then "." else domain.name]
        servers.filterMap fun srv =>
          server_builder_append_base uri_parse AF_UNSPEC srv (some routing_domains)
            global_config.searches ca
  (records, resolve_mode, ca)

/-- Records contributed by one interface inside the loop of parse_all_interface_config:
an interface without nameservers contributes nothing (the continue statement); otherwise
the domain lists and networks are gathered once and one record per accepted nameserver
string is emitted, extended with the interface metadata. -/
def interface_records_one (uri_parse : Int → String → Option NMDnsServer)
    (explicit_default : Bool) (ca : Option String) (ip_data : NMDnsConfigIPData) :
    List WireRecord :=
  if ip_data.nameservers.isEmpty then []
  else
    let rd_sd := gather_interface_domains ip_data explicit_default
    let networks := get_networks ip_data
    ip_data.nameservers.filterMap fun srv =>
      (server_builder_append_base uri_parse ip_data.addr_family srv rd_sd.1 rd_sd.2 ca).map
        fun base =>
          server_builder_append_interface_info base ip_data.ifname networks
            ip_data.connection_id ip_data.connection_uuid ip_data.dbus_path

/-- Translation of parse_all_interface_config: compute the explicit-default flag once
over the whole list, then concatenate the record chunks of the interfaces in order. -/
def parse_all_interface_config (uri_parse : Int → String → Option NMDnsServer)
    (ip_data_lst : List NMDnsConfigIPData) (ca : Option String) : List WireRecord :=
  ip_data_lst.flatMap
    (interface_records_one uri_parse (is_default_interface_explicit ip_data_lst) ca)

/-- The message-building part of update: ca starts as NULL and resolve mode as 0; when a
global configuration is present parse_global_config overrides both and contributes the
leading records; the interface records follow. -/
def build_update_args (uri_parse : Int → String → Option NMDnsServer)
    (global_config : Option NMGlobalDnsConfig) (ip_data_lst : List NMDnsConfigIPData) :
    UpdateMessage :=
  match global_config with
  | none =>
      { records := parse_all_interface_config uri_parse ip_data_lst none
        resolve_mode := 0 }
  | some gc =>
      let g := parse_global_config uri_parse gc
      { records := g.1 ++ parse_all_interface_config uri_parse ip_data_lst g.2.2
        resolve_mode := g.2.1 }

/-- Response payload of the Update RPC: the boolean success flag and the status string
unpacked by g_variant_get with format (b&s). -/
structure RpcResponse where
  all_ok : Bool
  message : String
deriving DecidableEq, Repr

/-- Log levels used by the plugin (_LOGT, _LOGD, _LOGW). -/
inductive LogLevel where
  | trace
  | debug
  | warn
deriving DecidableEq, Repr

/-- Observable actions of one callback or method run: log lines, the g_variant_get call
performed on the RPC response (with the response value it receives, possibly absent),
the issuing of a g_dbus_connection_call RPC (with the destination owner, the message and
the cancellable token it is issued under), and the update-pending-maybe-changed
notification to the plugin framework. -/
inductive Output where
  | log (level : LogLevel) (msg : String)
  | variantGet (response : Option RpcResponse)
  | rpcSend (owner : Option String) (msg : Option UpdateMessage) (token : Nat)
  | pendingMaybeChanged
deriving DecidableEq, Repr

/-- State of one plugin instance: the fields of NMDnsDnsconfdPrivate plus bookkeeping of
the asynchronous environment.  GCancellable objects are modelled as numbered tokens drawn
from the counter next_token: update_token and lookup_token are the cancellables currently
held in update_cancellable and name_owner_cancellable; cancelled collects every token on
which g_cancellable_cancel has run (nm_clear_g_cancellable cancels before dropping);
outstanding collects the tokens of RPC calls issued and not yet completed;
lookup_outstanding is the token of the name-owner lookup still in flight (the C code
never clears name_owner_cancellable on completion, so the two can differ). -/
structure St where
  dbus_connection : Bool
  update_token : Option Nat
  name_owner : Option String
  subscribed : Bool
  lookup_token : Option Nat
  lookup_outstanding : Option Nat
  latest_update_args : Option UpdateMessage
  next_token : Nat
  cancelled : List Nat
  outstanding : List Nat
deriving DecidableEq, Repr

/-- State of a freshly constructed plugin object: g_object_new zero-fills the private
struct. -/
def init_state : St :=
  { dbus_connection := false
    update_token := none
    name_owner := none
    subscribed := false
    lookup_token := none
    lookup_outstanding := none
    latest_update_args := none
    next_token := 0
    cancelled := []
    outstanding := [] }

/-- Translation of nm_clear_g_cancellable on update_cancellable: when a cancellable is
held it is cancelled and the field is cleared; otherwise nothing happens. -/
def clear_update_cancellable (s : St) : St :=
  match s.update_token with
  | none => s
  | some t => { s with update_token := none, cancelled := t :: s.cancelled }

/-- Translation of nm_clear_g_cancellable on name_owner_cancellable. -/
def clear_lookup_cancellable (s : St) : St :=
  match s.lookup_token with
  | none => s
  | some t => { s with lookup_token := none, cancelled := t :: s.cancelled }

/-- Translation of nm_str_not_empty: an empty string is normalized to NULL. -/
def nm_str_not_empty (s : Option String) : Option String :=
  match s with
  | some str => if str.isEmpty then none else some str
  | none => none

/-- Translation of _update_pending_detect: an update is pending exactly while
update_cancellable is set. -/
def _update_pending_detect (s : St) : Bool :=
  s.update_token.isSome

/-- Translation of get_update_pending. -/
def get_update_pending (s : St) : Bool :=
  _update_pending_detect s

/-- Translation of send_dnsconfd_update: cancel and drop the previous update cancellable
if any, create a fresh one, issue the asynchronous Update call carrying the current name
owner and latest_update_args under the fresh cancellable, and notify that the pending
status may have changed. -/
def send_dnsconfd_update (s : St) : St × List Output :=
  let s1 := clear_update_cancellable s
  let tok := s1.next_token
  let s2 := { s1 with
              update_token := some tok
              next_token := tok + 1
              outstanding := tok :: s1.outstanding }
  (s2, [Output.rpcSend s2.name_owner s2.latest_update_args tok, Output.pendingMaybeChanged])

/-- Translation of dnsconfd_update_done.  A completion whose error is a cancellation
returns before touching the object.  Otherwise the update cancellable is cancelled and
cleared, a missing response is logged as a warning, and then g_variant_get runs on the
response unconditionally; with an absent response that call receives NULL, which the
embedding records as the output variantGet none and after which the remaining C
statements read indeterminate data, so the embedding stops there.  With a present
response the success flag selects a trace or warning log and the pending notification is
emitted. -/
def dnsconfd_update_done (cancelled : Bool) (response : Option RpcResponse)
    (errmsg : String) (s : St) : St × List Output :=
  if cancelled then (s, [])
  else
    let s1 := clear_update_cancellable s
    match response with
    | none =>
        (s1, [Output.log LogLevel.warn ("dnsconfd update failed: " ++ errmsg),
              Output.variantGet none])
    | some r =>
        let outcome :=
          if r.all_ok then Output.log LogLevel.trace "dnsconfd update successful"
          else Output.log LogLevel.warn ("dnsconfd update failed: " ++ r.message)
        (s1, [Output.variantGet (some r), outcome, Output.pendingMaybeChanged])

/-- Translation of name_owner_changed: normalize the reported owner, return when it
equals the cached owner, otherwise replace the cached owner; a vanished owner is only
logged, a new owner is logged and triggers a send followed by the pending
notification. -/
def name_owner_changed (owner_raw : Option String) (s : St) : St × List Output :=
  let owner := nm_str_not_empty owner_raw
  if s.name_owner = owner then (s, [])
  else
    let s1 := { s with name_owner := owner }
    match owner with
    | none => (s1, [Output.log LogLevel.debug "D-Bus name for dnsconfd disappeared"])
    | some o =>
        let r := send_dnsconfd_update s1
        (r.1, Output.log LogLevel.trace ("D-Bus name for dnsconfd got owner " ++ o)
                :: r.2 ++ [Output.pendingMaybeChanged])

/-- Result values of ensure_all_connected. -/
inductive ConnectionState where
  | fail
  | success
  | wait
deriving DecidableEq, Repr

/-- Translation of ensure_all_connected.  The parameter can_connect tells whether the
main D-Bus connection is obtainable (NM_MAIN_DBUS_CONNECTION_GET non NULL).  Without a
connection the call fails; with a cached owner it succeeds; otherwise the signal
subscription and the name-owner lookup are created when not already present and the call
reports wait. -/
def ensure_all_connected (can_connect : Bool) (s : St) : St × ConnectionState :=
  let s0 := if s.dbus_connection then s
            else if can_connect then { s with dbus_connection := true } else s
  if !s0.dbus_connection then (s0, ConnectionState.fail)
  else if s0.name_owner.isSome then (s0, ConnectionState.success)
  else
    let s1 := if s0.subscribed then s0 else { s0 with subscribed := true }
    let s2 := if s1.lookup_token.isSome then s1
              else { s1 with
                     lookup_token := some s1.next_token
                     lookup_outstanding := some s1.next_token
                     next_token := s1.next_token + 1 }
    (s2, ConnectionState.wait)

/-- Translation of update: build the message, store it as latest_update_args (replacing
the previous one), then ensure connectivity; on fail report an error (returned FALSE)
without any RPC, on wait return TRUE, on success send and return TRUE.  The trace logs
emitted before building are included; the level-guarded debug print of the variant is
not modelled. -/
def update (uri_parse : Int → String → Option NMDnsServer)
    (global_config : Option NMGlobalDnsConfig) (ip_data_lst : List NMDnsConfigIPData)
    (can_connect : Bool) (s : St) : St × Bool × List Output :=
  let buildLogs :=
    (if global_config.isSome then [Output.log LogLevel.trace "parsing global configuration"]
     else [])
      ++ [Output.log LogLevel.trace "parsing configuration of interfaces"]
  let args := build_update_args uri_parse global_config ip_data_lst
  let s1 := { s with latest_update_args := some args }
  let r := ensure_all_connected can_connect s1
  match r.2 with
  | ConnectionState.fail => (r.1, false, buildLogs)
  | ConnectionState.wait => (r.1, true, buildLogs)
  | ConnectionState.success =>
      let r2 := send_dnsconfd_update r.1
      (r2.1, true, buildLogs ++ r2.2)

/-- Translation of stop: cancel and clear the update cancellable, cancel and clear the
name-owner cancellable, and remove the name-owner-changed signal subscription.  The
D-Bus connection handle, the cached owner and the latest message are not touched. -/
def stop (s : St) : St :=
  let s1 := clear_update_cancellable s
  let s2 := clear_lookup_cancellable s1
  { s2 with subscribed := false }

/-- Translation of dispose: run stop, free the cached owner and the latest message, and
drop the D-Bus connection reference. -/
def dispose (s : St) : St :=
  let s1 := stop s
  { s1 with name_owner := none, latest_update_args := none, dbus_connection := false }

/-- Asynchronous events a plugin instance reacts to.  An update invocation carries the
configuration snapshot and connectivity of the environment; ownerSignal is one delivery
of the NameOwnerChanged signal (the new-owner string, possibly empty); lookupDone is the
completion of the GetNameOwner call started by ensure_all_connected, carrying its token
and the reported owner (NULL on failure or cancellation); updateDone is the completion
of one issued Update RPC, carrying the token of the cancellable it was issued under, the
optional response and the error message used when the response is absent. -/
inductive Event where
  | update (global_config : Option NMGlobalDnsConfig) (ip_data_lst : List NMDnsConfigIPData)
      (can_connect : Bool)
  | ownerSignal (new_owner : String)
  | lookupDone (token : Nat) (owner : Option String)
  | updateDone (token : Nat) (response : Option RpcResponse) (errmsg : String)
  | stop
deriving DecidableEq, Repr

/-- One event step of a plugin instance.  A NameOwnerChanged signal is delivered only
while the subscription exists.  A lookup completion is matched against the outstanding
lookup token; the callback get_name_owner_cb returns immediately when it reports no
owner with a cancellation error, and otherwise forwards the owner to name_owner_changed.
An RPC completion is matched against the issued tokens, removed from them, and handled
by dnsconfd_update_done, observing a cancellation when its token was cancelled. -/
def step (uri_parse : Int → String → Option NMDnsServer) (e : Event) (s : St) :
    St × List Output :=
  match e with
  | Event.update gc lst cc =>
      let r := update uri_parse gc lst cc s
      (r.1, r.2.2)
  | Event.ownerSignal new_owner =>
      if s.subscribed then name_owner_changed (some new_owner) s
      else (s, [])
  | Event.lookupDone tok owner =>
      if s.lookup_outstanding = some tok then
        let s1 := { s with lookup_outstanding := none }
        let cancelled := tok ∈ s1.cancelled
        if owner = none ∧ cancelled then (s1, [])
        else name_owner_changed owner s1
      else (s, [])
  | Event.updateDone tok response errmsg =>
      if tok ∈ s.outstanding then
        let s1 := { s with outstanding := s.outstanding.erase tok }
        dnsconfd_update_done (tok ∈ s1.cancelled) response errmsg s1
      else (s, [])
  | Event.stop => (stop s, [])

/-- The state reached from a fresh plugin after a list of events. -/
def run (uri_parse : Int → String → Option NMDnsServer) (es : List Event) : St :=
  es.foldl (fun s e => (step uri_parse e s).1) init_state

/-- Number of RPC calls issued among the outputs of one step. -/
def countRpcSends (outs : List Output) : Nat :=
  (outs.filter fun o =>
    match o with
    | Output.rpcSend _ _ _ => true
    | _ => false).length

/-- Messages carried by the RPC calls issued among the outputs of one step, in order. -/
def sentMessages (outs : List Output) : List (Option UpdateMessage) :=
  outs.filterMap fun o =>
    match o with
    | Output.rpcSend _ m _ => some m
    | _ => none

/-- The RPC calls that were issued and are neither completed nor cancelled. -/
def liveCalls (s : St) : List Nat :=
  s.outstanding.filter fun t => !s.cancelled.contains t

/-- Names of the chosen domain entries of one interface after parsing: the searches when
non-empty, otherwise the plain domains. -/
def interfaceDomainNames (ip_data : NMDnsConfigIPData) : List String :=
  ((if ip_data.searches.isEmpty then ip_data.domains else ip_data.searches).map
    nm_utils_parse_dns_domain).map Prod.fst

/-- Condition of claim C5 as stated: some search entry of some interface is routing-only
and names the root domain. -/
def routingOnlyDotInSearches (ip_data_lst : List NMDnsConfigIPData) : Prop :=
  ∃ ip_data ∈ ip_data_lst, ∃ d ∈ ip_data.searches,
    (nm_utils_parse_dns_domain d).2 = true ∧ (nm_utils_parse_dns_domain d).1 = "."

/-- Claim C5 as stated: only a routing-only "." search entry suppresses the synthesized
"." routing domain, and otherwise every interface holding the best default route gets
"." appended to its routing-domain list. -/
def claimC5_as_stated : Prop :=
  ∀ ip_data_lst : List NMDnsConfigIPData, ∀ ip_data ∈ ip_data_lst,
    (routingOnlyDotInSearches ip_data_lst →
      (gather_interface_domains ip_data (is_default_interface_explicit ip_data_lst)).1
        = listToOpt (interfaceDomainNames ip_data)) ∧
    (¬ routingOnlyDotInSearches ip_data_lst → ip_data.has_best_default_route = true →
      (gather_interface_domains ip_data (is_default_interface_explicit ip_data_lst)).1
        = some (interfaceDomainNames ip_data ++ ["."]))

/-- Corrected condition of C5: some search entry of some interface parses to the name
".", whether or not it carries the routing-only marker. -/
def dotInSearches (ip_data_lst : List NMDnsConfigIPData) : Prop :=
  ∃ ip_data ∈ ip_data_lst, ∃ d ∈ ip_data.searches, (nm_utils_parse_dns_domain d).1 = "."

instance decRoutingOnlyDotInSearches (ip_data_lst : List NMDnsConfigIPData) :
    Decidable (routingOnlyDotInSearches ip_data_lst) :=
  inferInstanceAs (Decidable (∃ ip_data ∈ ip_data_lst, ∃ d ∈ ip_data.searches,
    (nm_utils_parse_dns_domain d).2 = true ∧ (nm_utils_parse_dns_domain d).1 = "."))

instance decDotInSearches (ip_data_lst : List NMDnsConfigIPData) :
    Decidable (dotInSearches ip_data_lst) :=
  inferInstanceAs (Decidable (∃ ip_data ∈ ip_data_lst, ∃ d ∈ ip_data.searches,
    (nm_utils_parse_dns_domain d).1 = "."))

/-- Claim C8 as stated: the global builder emits one record per server of every domain
of the global configuration (a NULL server list counting as zero servers). -/
def claimC8_as_stated : Prop :=
  ∀ (uri_parse : Int → String → Option NMDnsServer) (gc : NMGlobalDnsConfig),
    (parse_global_config uri_parse gc).1.length
      = (gc.domains.map fun d => (d.servers.getD []).length).sum

/-- Claim C2 as stated: stop cancels both cancellables, removes the subscription,
releases the transport handle, clears the cached owner and is idempotent. -/
def claimC2_as_stated : Prop :=
  ∀ s : St,
    (stop s).update_token = none ∧
    (stop s).lookup_token = none ∧
    (stop s).subscribed = false ∧
    (stop s).dbus_connection = false ∧
    (stop s).name_owner = none ∧
    stop (stop s) = stop s

/-- Token bookkeeping invariant of reachable states: a live issued call is exactly the
one whose cancellable is currently held, issued tokens are distinct, and every known
token is below the freshness counter. -/
def TokenInv (s : St) : Prop :=
  (∀ t ∈ s.outstanding, t ∉ s.cancelled → s.update_token = some t) ∧
  (∀ t, s.update_token = some t → t ∈ s.outstanding ∧ t ∉ s.cancelled) ∧
  s.outstanding.Nodup ∧
  (∀ t ∈ s.outstanding, t < s.next_token) ∧
  (∀ t ∈ s.cancelled, t < s.next_token) ∧
  (∀ t, s.lookup_token = some t → t < s.next_token)

/-- Retained-message invariant of reachable states: while the ownership subscription or
the owner lookup exists, a latest built message is retained. -/
def LatestInv (s : St) : Prop :=
  (s.subscribed = true ∨ s.lookup_token.isSome = true ∨ s.lookup_outstanding.isSome = true) →
    s.latest_update_args.isSome = true

/-- Interface whose search list holds the entry "." without the routing-only marker. -/
def ipSearchDot : NMDnsConfigIPData :=
  { addr_family := 2
    searches := ["."]
    domains := []
    nameservers := ["192.0.2.1"]
    has_best_default_route := false
    routes := []
    ifname := some "eth0"
    connection_id := some "conn0"
    connection_uuid := some "uuid0"
    dbus_path := some "/org/freedesktop/NetworkManager/ActiveConnection/1" }

/-- Interface holding the best default route of its family, with no domains. -/
def ipDefaultRoute : NMDnsConfigIPData :=
  { addr_family := 2
    searches := []
    domains := []
    nameservers := ["192.0.2.2"]
    has_best_default_route := true
    routes := []
    ifname := some "eth1"
    connection_id := some "conn1"
    connection_uuid := some "uuid1"
    dbus_path := some "/org/freedesktop/NetworkManager/ActiveConnection/2" }

/-- Snapshot pairing the two interfaces above. -/
def lstC5 : List NMDnsConfigIPData := [ipSearchDot, ipDefaultRoute]

/-- Interface with an empty nameserver list. -/
def ipNoNameservers : NMDnsConfigIPData :=
  { ipDefaultRoute with nameservers := [] }

/-- Interface with one valid and one invalid nameserver string. -/
def ipMixedNameservers : NMDnsConfigIPData :=
  { ipDefaultRoute with nameservers := ["9.9.9.9", ""] }

/-- Global configuration whose single domain has a non-empty server list holding one
invalid server string. -/
def gcOneInvalidServer : NMGlobalDnsConfig :=
  { searches := none
    certification_authority := none
    resolve_mode := 0
    domains := [{ name := "internal.example", servers := some [""] }] }

/-- Plugin state with a transport handle and a cached owner. -/
def stOwnerKnown : St :=
  { init_state with dbus_connection := true, name_owner := some ":1.5" }

/-- Plugin state awaiting the owner: transport held, subscription and lookup in place,
one built message retained. -/
def stAwaitingOwner : St :=
  { init_state with
    dbus_connection := true
    subscribed := true
    lookup_token := some 0
    lookup_outstanding := some 0
    latest_update_args := some { records := [], resolve_mode := 0 }
    next_token := 1 }

/-- Plugin state in which call token 0 was issued and then cancelled and its completion
has not yet arrived. -/
def stCancelled : St :=
  { init_state with cancelled := [0], outstanding := [0], next_token := 1 }

@[simp] theorem clear_update_dbus (s : St) :
    (clear_update_cancellable s).dbus_connection = s.dbus_connection := by
  unfold clear_update_cancellable; cases h : s.update_token <;> simp [h]

@[simp] theorem clear_update_name_owner (s : St) :
    (clear_update_cancellable s).name_owner = s.name_owner := by
  unfold clear_update_cancellable; cases h : s.update_token <;> simp [h]

@[simp] theorem clear_update_subscribed (s : St) :
    (clear_update_cancellable s).subscribed = s.subscribed := by
  unfold clear_update_cancellable; cases h : s.update_token <;> simp [h]

@[simp] theorem clear_update_lookup_token (s : St) :
    (clear_update_cancellable s).lookup_token = s.lookup_token := by
  unfold clear_update_cancellable; cases h : s.update_token <;> simp [h]

@[simp] theorem clear_update_lookup_outstanding (s : St) :
    (clear_update_cancellable s).lookup_outstanding = s.lookup_outstanding := by
  unfold clear_update_cancellable; cases h : s.update_token <;> simp [h]

@[simp] theorem clear_update_latest (s : St) :
    (clear_update_cancellable s).latest_update_args = s.latest_update_args := by
  unfold clear_update_cancellable; cases h : s.update_token <;> simp [h]

@[simp] theorem clear_update_next_token (s : St) :
    (clear_update_cancellable s).next_token = s.next_token := by
  unfold clear_update_cancellable; cases h : s.update_token <;> simp [h]

@[simp] theorem clear_update_outstanding (s : St) :
    (clear_update_cancellable s).outstanding = s.outstanding := by
  unfold clear_update_cancellable; cases h : s.update_token <;> simp [h]

@[simp] theorem clear_update_update_token (s : St) :
    (clear_update_cancellable s).update_token = none := by
  unfold clear_update_cancellable; cases h : s.update_token <;> simp [h]

@[simp] theorem clear_lookup_dbus (s : St) :
    (clear_lookup_cancellable s).dbus_connection = s.dbus_connection := by
  unfold clear_lookup_cancellable; cases h : s.lookup_token <;> simp [h]

@[simp] theorem clear_lookup_name_owner (s : St) :
    (clear_lookup_cancellable s).name_owner = s.name_owner := by
  unfold clear_lookup_cancellable; cases h : s.lookup_token <;> simp [h]

@[simp] theorem clear_lookup_subscribed (s : St) :
    (clear_lookup_cancellable s).subscribed = s.subscribed := by
  unfold clear_lookup_cancellable; cases h : s.lookup_token <;> simp [h]

@[simp] theorem clear_lookup_update_token (s : St) :
    (clear_lookup_cancellable s).update_token = s.update_token := by
  unfold clear_lookup_cancellable; cases h : s.lookup_token <;> simp [h]

@[simp] theorem clear_lookup_lookup_outstanding (s : St) :
    (clear_lookup_cancellable s).lookup_outstanding = s.lookup_outstanding := by
  unfold clear_lookup_cancellable; cases h : s.lookup_token <;> simp [h]

@[simp] theorem clear_lookup_latest (s : St) :
    (clear_lookup_cancellable s).latest_update_args = s.latest_update_args := by
  unfold clear_lookup_cancellable; cases h : s.lookup_token <;> simp [h]

@[simp] theorem clear_lookup_next_token (s : St) :
    (clear_lookup_cancellable s).next_token = s.next_token := by
  unfold clear_lookup_cancellable; cases h : s.lookup_token <;> simp [h]

@[simp] theorem clear_lookup_outstanding_list (s : St) :
    (clear_lookup_cancellable s).outstanding = s.outstanding := by
  unfold clear_lookup_cancellable; cases h : s.lookup_token <;> simp [h]

@[simp] theorem clear_lookup_lookup_token (s : St) :
    (clear_lookup_cancellable s).lookup_token = none := by
  unfold clear_lookup_cancellable; cases h : s.lookup_token <;> simp [h]

theorem send_state (s : St) :
    (send_dnsconfd_update s).1
      = { s with
          update_token := some s.next_token
          next_token := s.next_token + 1
          outstanding := s.next_token :: s.outstanding
          cancelled := (clear_update_cancellable s).cancelled } := by
  unfold send_dnsconfd_update clear_update_cancellable
  cases h : s.update_token <;> simp [h]

theorem send_outputs (s : St) :
    (send_dnsconfd_update s).2
      = [Output.rpcSend s.name_owner s.latest_update_args s.next_token,
         Output.pendingMaybeChanged] := by
  unfold send_dnsconfd_update
  simp

@[simp] theorem countRpcSends_nil : countRpcSends [] = 0 := rfl

@[simp] theorem countRpcSends_cons_log (lv : LogLevel) (m : String) (outs : List Output) :
    countRpcSends (Output.log lv m :: outs) = countRpcSends outs := rfl

@[simp] theorem countRpcSends_cons_send (o : Option String) (m : Option UpdateMessage)
    (t : Nat) (outs : List Output) :
    countRpcSends (Output.rpcSend o m t :: outs) = countRpcSends outs + 1 := rfl

@[simp] theorem countRpcSends_cons_pending (outs : List Output) :
    countRpcSends (Output.pendingMaybeChanged :: outs) = countRpcSends outs := rfl

@[simp] theorem countRpcSends_cons_variantGet (r : Option RpcResponse)
    (outs : List Output) :
    countRpcSends (Output.variantGet r :: outs) = countRpcSends outs := rfl

@[simp] theorem countRpcSends_append (a b : List Output) :
    countRpcSends (a ++ b) = countRpcSends a + countRpcSends b := by
  simp [countRpcSends, List.filter_append]

@[simp] theorem sentMessages_nil : sentMessages [] = [] := rfl

@[simp] theorem sentMessages_cons_log (lv : LogLevel) (m : String) (outs : List Output) :
    sentMessages (Output.log lv m :: outs) = sentMessages outs := rfl

@[simp] theorem sentMessages_cons_send (o : Option String) (m : Option UpdateMessage)
    (t : Nat) (outs : List Output) :
    sentMessages (Output.rpcSend o m t :: outs) = m :: sentMessages outs := rfl

@[simp] theorem sentMessages_cons_pending (outs : List Output) :
    sentMessages (Output.pendingMaybeChanged :: outs) = sentMessages outs := rfl

@[simp] theorem sentMessages_cons_variantGet (r : Option RpcResponse)
    (outs : List Output) :
    sentMessages (Output.variantGet r :: outs) = sentMessages outs := rfl

@[simp] theorem sentMessages_append (a b : List Output) :
    sentMessages (a ++ b) = sentMessages a ++ sentMessages b := by
  simp [sentMessages, List.filterMap_append]

theorem ensure_preserves (cc : Bool) (s : St) :
    (ensure_all_connected cc s).1.name_owner = s.name_owner ∧
    (ensure_all_connected cc s).1.latest_update_args = s.latest_update_args ∧
    (ensure_all_connected cc s).1.update_token = s.update_token ∧
    (ensure_all_connected cc s).1.outstanding = s.outstanding ∧
    (ensure_all_connected cc s).1.cancelled = s.cancelled := by
  obtain ⟨dc, ut, no, sub, lt, lo, la, nt, ca, ou⟩ := s
  cases dc <;> cases cc <;> cases sub <;> cases no <;> cases lt <;>
    simp [ensure_all_connected]

theorem ensure_success_iff (cc : Bool) (s : St) :
    ((ensure_all_connected cc s).2 = ConnectionState.success ↔
      (s.dbus_connection = true ∨ cc = true) ∧ s.name_owner.isSome = true) ∧
    ((ensure_all_connected cc s).2 = ConnectionState.fail ↔
      s.dbus_connection = false ∧ cc = false) := by
  obtain ⟨dc, ut, no, sub, lt, lo, la, nt, ca, ou⟩ := s
  cases dc <;> cases cc <;> cases sub <;> cases no <;> cases lt <;>
    simp [ensure_all_connected]

theorem name_owner_changed_spec (owner_raw : Option String) (s : St) :
    (name_owner_changed owner_raw s).1.latest_update_args = s.latest_update_args ∧
    (name_owner_changed owner_raw s).1.subscribed = s.subscribed ∧
    (name_owner_changed owner_raw s).1.lookup_token = s.lookup_token ∧
    (name_owner_changed owner_raw s).1.lookup_outstanding = s.lookup_outstanding ∧
    (name_owner_changed owner_raw s).1.dbus_connection = s.dbus_connection ∧
    (countRpcSends (name_owner_changed owner_raw s).2
      = if nm_str_not_empty owner_raw ≠ s.name_owner ∧
           (nm_str_not_empty owner_raw).isSome = true then 1 else 0) ∧
    (∀ o m t, Output.rpcSend o m t ∈ (name_owner_changed owner_raw s).2 →
      o.isSome = true ∧ (name_owner_changed owner_raw s).1.name_owner = o ∧
      m = s.latest_update_args) := by
  unfold name_owner_changed
  by_cases heq : s.name_owner = nm_str_not_empty owner_raw
  · simp [heq]
  · cases hno : nm_str_not_empty owner_raw with
    | none =>
        rw [hno] at heq
        simp [hno, heq]
    | some o2 =>
        rw [hno] at heq
        have hne : ¬ (some o2 : Option String) = s.name_owner := fun h => heq h.symm
        simp only [hno, if_neg heq, send_outputs, send_state]
        refine ⟨by simp, by simp, by simp, by simp, by simp, by simp [hne], ?_⟩
        intro o3 m t hmem2
        simp only [List.cons_append, List.mem_cons, List.mem_singleton] at hmem2
        rcases hmem2 with h1 | h1 | h1 | h1 <;> simp_all

@[simp] theorem stop_latest (s : St) :
    (stop s).latest_update_args = s.latest_update_args := by
  simp [stop]

@[simp] theorem stop_name_owner (s : St) : (stop s).name_owner = s.name_owner := by
  simp [stop]

@[simp] theorem stop_dbus (s : St) : (stop s).dbus_connection = s.dbus_connection := by
  simp [stop]

@[simp] theorem stop_subscribed (s : St) : (stop s).subscribed = false := by
  simp [stop]

@[simp] theorem stop_lookup_token (s : St) : (stop s).lookup_token = none := by
  simp [stop]

@[simp] theorem stop_lookup_outstanding (s : St) :
    (stop s).lookup_outstanding = s.lookup_outstanding := by
  simp [stop]

theorem update_done_state (c : Bool) (resp : Option RpcResponse) (e : String) (s : St) :
    (dnsconfd_update_done c resp e s).1
      = if c then s else clear_update_cancellable s := by
  unfold dnsconfd_update_done
  cases c <;> cases resp <;> simp

theorem update_done_no_sends (c : Bool) (resp : Option RpcResponse) (e : String)
    (s : St) : countRpcSends (dnsconfd_update_done c resp e s).2 = 0 := by
  unfold dnsconfd_update_done
  cases c <;> cases resp <;> simp
  split <;> simp

theorem mem_rpcSend_count_pos (o : Option String) (m : Option UpdateMessage) (t : Nat)
    (outs : List Output) : Output.rpcSend o m t ∈ outs → countRpcSends outs ≠ 0 := by
  intro hmem
  induction outs with
  | nil => simp at hmem
  | cons a rest ih =>
      rcases List.mem_cons.mp hmem with h | h
      · subst h
        simp
      · cases a <;> simp [ih h]

theorem update_sends (uri_parse : Int → String → Option NMDnsServer)
    (gc : Option NMGlobalDnsConfig) (lst : List NMDnsConfigIPData) (cc : Bool) (s : St) :
    ∀ o m t, Output.rpcSend o m t ∈ (update uri_parse gc lst cc s).2.2 →
      o.isSome = true ∧ (update uri_parse gc lst cc s).1.name_owner = o ∧
      m = (update uri_parse gc lst cc s).1.latest_update_args := by
  obtain ⟨dc, ut, no, sub, lt, lo, la, nt, ca, ou⟩ := s
  cases dc <;> cases cc <;> cases sub <;> cases no <;> cases lt <;> cases ut <;>
    cases gc <;> intro o m t hmem <;>
    simp [update, ensure_all_connected, send_dnsconfd_update,
      clear_update_cancellable] at hmem ⊢ <;>
    simp_all

theorem update_latest (uri_parse : Int → String → Option NMDnsServer)
    (gc : Option NMGlobalDnsConfig) (lst : List NMDnsConfigIPData) (cc : Bool) (s : St) :
    (update uri_parse gc lst cc s).1.latest_update_args
      = some (build_update_args uri_parse gc lst) := by
  obtain ⟨dc, ut, no, sub, lt, lo, la, nt, ca, ou⟩ := s
  cases dc <;> cases cc <;> cases sub <;> cases no <;> cases lt <;> cases ut <;>
    simp [update, ensure_all_connected, send_dnsconfd_update, clear_update_cancellable]

/-- C1: on an RPC completion that is not a cancellation and carries no response (a
transport-level or protocol-level failure), dnsconfd_update_done logs a warning but then
performs an unguarded g_variant_get on the missing response (the handler lacks a return
after the warning), contradicting the claim that the failure is swallowed safely and
locally. -/
theorem C1_null_response_unguarded_access :
    (dnsconfd_update_done false none "connection closed" init_state).2
      = [Output.log LogLevel.warn "dnsconfd update failed: connection closed",
         Output.variantGet none]
      ∧ Output.variantGet none
          ∈ (dnsconfd_update_done false none "connection closed" init_state).2 := by
  constructor
  · rfl
  · simp [dnsconfd_update_done, init_state, clear_update_cancellable]

/-- C2 counterexample: stop does not release the transport handle; on a state holding a
D-Bus connection the component stays connected after stop, so the claimed transition to
the Disconnected state fails. -/
theorem C2_counterexample : ¬ claimC2_as_stated := by
  intro h
  have h2 := (h { init_state with dbus_connection := true }).2.2.2.1
  revert h2
  decide

/-- C2 amended: stop cancels the outstanding RPC cancellable and the outstanding lookup
cancellable and removes the ownership subscription, and is idempotent; it leaves the
transport handle, the cached owner and the retained message untouched, which are
released only in dispose. -/
theorem C2_stop_cancels_without_releasing_transport (s : St) :
    (stop s).update_token = none ∧
    (stop s).lookup_token = none ∧
    (stop s).subscribed = false ∧
    (stop s).dbus_connection = s.dbus_connection ∧
    (stop s).name_owner = s.name_owner ∧
    (stop s).latest_update_args = s.latest_update_args ∧
    stop (stop s) = stop s ∧
    (dispose s).dbus_connection = false ∧
    (dispose s).name_owner = none ∧
    (dispose s).latest_update_args = none := by
  cases s with
  | mk dc ut no sub lt lo la nt ca ou =>
    cases ut <;> cases lt <;>
      simp [stop, dispose, clear_update_cancellable, clear_lookup_cancellable]

theorem is_default_explicit_iff (ip_data_lst : List NMDnsConfigIPData) :
    is_default_interface_explicit ip_data_lst = true ↔ dotInSearches ip_data_lst := by
  simp [is_default_interface_explicit, dotInSearches, List.any_eq_true]

/-- C5 counterexample: on a snapshot where one interface has the plain search entry "."
(not routing-only) and another interface holds the best default route, the claim as
stated predicts a synthesized "." for the default-route interface, but the code treats
the plain "." entry as an explicit default and appends nothing. -/
theorem C5_counterexample : ¬ claimC5_as_stated := by
  intro h
  have h2 := (h lstC5 ipDefaultRoute (by decide)).2 (by decide) (by decide)
  revert h2
  decide

/-- C5 amended: the suppression condition is any search entry whose parsed name is ".",
routing-only or not; under that condition no interface gets a synthesized "."; without
it every interface holding the best default route gets "." appended to its
routing-domain list and an interface without the best default route gets no
synthesized ".". -/
theorem C5_default_domain_detection (ip_data_lst : List NMDnsConfigIPData)
    (ip_data : NMDnsConfigIPData) (_hmem : ip_data ∈ ip_data_lst) :
    (dotInSearches ip_data_lst →
      (gather_interface_domains ip_data (is_default_interface_explicit ip_data_lst)).1
        = listToOpt (interfaceDomainNames ip_data)) ∧
    (¬ dotInSearches ip_data_lst → ip_data.has_best_default_route = true →
      (gather_interface_domains ip_data (is_default_interface_explicit ip_data_lst)).1
        = some (interfaceDomainNames ip_data ++ ["."])) ∧
    (ip_data.has_best_default_route = false →
      (gather_interface_domains ip_data (is_default_interface_explicit ip_data_lst)).1
        = listToOpt (interfaceDomainNames ip_data)) := by
  refine ⟨?_, ?_, ?_⟩
  · intro hdot
    have hexp : is_default_interface_explicit ip_data_lst = true :=
      (is_default_explicit_iff ip_data_lst).mpr hdot
    simp [gather_interface_domains, hexp, interfaceDomainNames, List.map_map,
      Function.comp]
  · intro hdot hdef
    have hexp : is_default_interface_explicit ip_data_lst = false :=
      Bool.eq_false_iff.mpr fun h => hdot ((is_default_explicit_iff ip_data_lst).mp h)
    simp [gather_interface_domains, hexp, hdef, interfaceDomainNames, List.map_map,
      Function.comp, listToOpt]
  · intro hdef
    simp [gather_interface_domains, hdef, interfaceDomainNames, List.map_map,
      Function.comp]

/-- C5 witness: on a one-interface snapshot with no "." search entry, the default-route
interface receives the synthesized ".". -/
theorem C5_witness :
    (gather_interface_domains ipDefaultRoute
        (is_default_interface_explicit [ipDefaultRoute])).1
      = some (interfaceDomainNames ipDefaultRoute ++ ["."]) :=
  (C5_default_domain_detection [ipDefaultRoute] ipDefaultRoute (by decide)).2.1
    (by decide) (by decide)

theorem filterMap_length_eq_filter_isSome {α β : Type} (f : α → Option β) (l : List α) :
    (l.filterMap f).length = (l.filter fun a => (f a).isSome).length := by
  induction l with
  | nil => rfl
  | cons a t ih =>
      cases h : f a <;> simp [List.filterMap_cons, List.filter_cons, h, ih]

/-- C7: each interface contributes exactly one record per nameserver string accepted by
the URI parser; an interface with an empty nameserver list contributes zero records; a
rejected nameserver string produces no record and no error while the rest of the build
continues, and the full interface pass is the ordered concatenation of the per-interface
chunks. -/
theorem C7_records_per_valid_nameserver (uri_parse : Int → String → Option NMDnsServer)
    (explicit_default : Bool) (ca : Option String) (ip_data : NMDnsConfigIPData) :
    (interface_records_one uri_parse explicit_default ca ip_data).length
      = (ip_data.nameservers.filter
          fun srv => (uri_parse ip_data.addr_family srv).isSome).length
    ∧ (ip_data.nameservers = [] →
        interface_records_one uri_parse explicit_default ca ip_data = [])
    ∧ (∀ ip_data_lst, parse_all_interface_config uri_parse ip_data_lst ca
        = ip_data_lst.flatMap
            (interface_records_one uri_parse (is_default_interface_explicit ip_data_lst)
              ca)) := by
  refine ⟨?_, ?_, fun _ => rfl⟩
  · by_cases h : ip_data.nameservers.isEmpty
    · have h0 : ip_data.nameservers = [] := List.isEmpty_iff.mp h
      simp [interface_records_one, h, h0]
    · simp only [interface_records_one, h, Bool.false_eq_true, if_false]
      rw [filterMap_length_eq_filter_isSome]
      congr 1
      apply List.filter_congr
      intro srv _
      cases hp : uri_parse ip_data.addr_family srv <;>
        simp [server_builder_append_base, hp]
  · intro h0
    simp [interface_records_one, h0]

/-- C7 witness: an interface without nameservers contributes no record, and an interface
with one valid and one invalid nameserver contributes exactly one record. -/
theorem C7_witness :
    interface_records_one nm_dns_uri_parse_model false none ipNoNameservers = []
    ∧ (interface_records_one nm_dns_uri_parse_model false none ipMixedNameservers).length
        = (ipMixedNameservers.nameservers.filter
            fun srv =>
              (nm_dns_uri_parse_model ipMixedNameservers.addr_family srv).isSome).length
    ∧ (interface_records_one nm_dns_uri_parse_model false none ipMixedNameservers).length
        = 1 :=
  ⟨(C7_records_per_valid_nameserver nm_dns_uri_parse_model false none
      ipNoNameservers).2.1 rfl,
   (C7_records_per_valid_nameserver nm_dns_uri_parse_model false none
      ipMixedNameservers).1,
   by decide⟩

/-- C8 counterexample: a global domain with the non-empty server list [""] yields zero
records under the URI parser model because the server string is invalid, while the claim
as stated demands one record per server. -/
theorem C8_counterexample : ¬ claimC8_as_stated := by
  intro h
  have h2 := h nm_dns_uri_parse_model gcOneInvalidServer
  revert h2
  decide

/-- C8 amended: the global builder emits one record per server string that the URI
parser accepts (invalid servers are skipped), each carrying the global search suffixes
and CA, with the sentinel domain name "*" mapped to the routing domain "." and every
other domain name kept; domains with a NULL server list are skipped; the resolve mode of
the message is the one of the global configuration when present and 0 otherwise. -/
theorem C8_global_records (uri_parse : Int → String → Option NMDnsServer)
    (gc : NMGlobalDnsConfig) (ip_data_lst : List NMDnsConfigIPData) :
    (parse_global_config uri_parse gc).1
      = gc.domains.flatMap (fun domain =>
          (domain.servers.getD []).filterMap fun srv =>
            (uri_parse AF_UNSPEC srv).map fun dns_server =>
              { address := dns_server.addr
                protocol_tls := dns_server.scheme_tls
                name := dns_server.servername
                routing_domains := some [if domain.name = "*" then "." else domain.name]
                search_domains := gc.searches
                ca := gc.certification_authority
                connection_id := none
                connection_uuid := none
                connection_object := none
                interface := none
                networks := none })
    ∧ (parse_global_config uri_parse gc).2.1 = gc.resolve_mode
    ∧ (parse_global_config uri_parse gc).2.2 = gc.certification_authority
    ∧ (build_update_args uri_parse (some gc) ip_data_lst).resolve_mode = gc.resolve_mode
    ∧ (build_update_args uri_parse none ip_data_lst).resolve_mode = 0 := by
  refine ⟨?_, rfl, rfl, rfl, rfl⟩
  unfold parse_global_config
  simp only
  congr 1
  funext domain
  cases hs : domain.servers with
  | none => rfl
  | some servers =>
      simp only [Option.getD_some]
      congr 1
      funext srv
      cases hp : uri_parse AF_UNSPEC srv <;>
        simp [server_builder_append_base, hp]

/-- C3: a step issues an RPC only with a present cached owner as destination and always
carries the retained latest message; every update invocation replaces the retained
message (last-write-wins) and every other event retains it; an ownership signal or a
lookup completion reporting a non-empty owner different from the cached one triggers
exactly one send, and any other report triggers none. -/
theorem C3_transmit_only_with_owner (uri_parse : Int → String → Option NMDnsServer)
    (s : St) :
    (∀ e o m t, Output.rpcSend o m t ∈ (step uri_parse e s).2 →
        o.isSome = true ∧ (step uri_parse e s).1.name_owner = o ∧
        m = (step uri_parse e s).1.latest_update_args) ∧
    (∀ gc lst cc, (step uri_parse (Event.update gc lst cc) s).1.latest_update_args
        = some (build_update_args uri_parse gc lst)) ∧
    (∀ e, (∀ gc lst cc, e ≠ Event.update gc lst cc) →
        (step uri_parse e s).1.latest_update_args = s.latest_update_args) ∧
    (∀ new_owner, countRpcSends (step uri_parse (Event.ownerSignal new_owner) s).2
        = if s.subscribed = true ∧ nm_str_not_empty (some new_owner) ≠ s.name_owner
             ∧ (nm_str_not_empty (some new_owner)).isSome = true
          then 1 else 0) ∧
    (∀ tok owner, countRpcSends (step uri_parse (Event.lookupDone tok owner) s).2
        = if s.lookup_outstanding = some tok ∧ ¬(owner = none ∧ tok ∈ s.cancelled)
             ∧ nm_str_not_empty owner ≠ s.name_owner
             ∧ (nm_str_not_empty owner).isSome = true
          then 1 else 0) := by
  refine ⟨?_, ?_, ?_, ?_, ?_⟩
  · intro e o m t hmem
    cases e with
    | update gc lst cc => exact update_sends uri_parse gc lst cc s o m t hmem
    | ownerSignal new_owner =>
        by_cases hsub : s.subscribed
        · simp only [step, if_pos hsub] at hmem ⊢
          have h7 := (name_owner_changed_spec (some new_owner) s).2.2.2.2.2.2 o m t hmem
          have h1 := (name_owner_changed_spec (some new_owner) s).1
          exact ⟨h7.1, h7.2.1, by rw [h1]; exact h7.2.2⟩
        · simp [step, hsub] at hmem
    | lookupDone tok owner =>
        by_cases hl : s.lookup_outstanding = some tok
        · by_cases hcan : owner = none ∧ tok ∈ s.cancelled
          · simp [step, hl, hcan] at hmem
          · simp [step, hl, hcan] at hmem ⊢
            have h7 := (name_owner_changed_spec owner
              { s with lookup_outstanding := none }).2.2.2.2.2.2 o m t hmem
            have h1 := (name_owner_changed_spec owner
              { s with lookup_outstanding := none }).1
            exact ⟨h7.1, h7.2.1, by rw [h1]; exact h7.2.2⟩
        · simp [step, hl] at hmem
    | updateDone tok resp errmsg =>
        by_cases ho : tok ∈ s.outstanding
        · simp only [step, if_pos ho] at hmem
          exact absurd (update_done_no_sends _ _ _ _)
            (mem_rpcSend_count_pos o m t _ hmem)
        · simp [step, ho] at hmem
    | stop => simp [step] at hmem
  · intro gc lst cc
    exact update_latest uri_parse gc lst cc s
  · intro e hne
    cases e with
    | update gc lst cc => exact absurd rfl (hne gc lst cc)
    | ownerSignal new_owner =>
        by_cases hsub : s.subscribed <;>
          simp [step, hsub, (name_owner_changed_spec (some new_owner) s).1]
    | lookupDone tok owner =>
        by_cases hl : s.lookup_outstanding = some tok
        · by_cases hcan : owner = none ∧ tok ∈ s.cancelled
          · simp [step, hl, hcan]
          · simp [step, hl, hcan,
              (name_owner_changed_spec owner { s with lookup_outstanding := none }).1]
        · simp [step, hl]
    | updateDone tok resp errmsg =>
        by_cases ho : tok ∈ s.outstanding
        · by_cases hcan : tok ∈ s.cancelled <;>
            simp [step, ho, hcan, update_done_state]
        · simp [step, ho]
    | stop => simp [step]
  · intro new_owner
    by_cases hsub : s.subscribed <;>
      simp [step, hsub, (name_owner_changed_spec (some new_owner) s).2.2.2.2.2.1]
  · intro tok owner
    by_cases hl : s.lookup_outstanding = some tok
    · by_cases hcan : owner = none ∧ tok ∈ s.cancelled
      · simp [step, hl, hcan]
      · simp [step, hl, hcan,
          (name_owner_changed_spec owner { s with lookup_outstanding := none }).2.2.2.2.2.1]
    · simp [step, hl]

/-- C3 witness: from an awaiting-owner state with a retained message, the ownership
signal reporting a fresh owner triggers exactly one send. -/
theorem C3_witness :
    countRpcSends
      (step nm_dns_uri_parse_model (Event.ownerSignal ":1.9") stAwaitingOwner).2 = 1 := by
  have h := (C3_transmit_only_with_owner nm_dns_uri_parse_model
    stAwaitingOwner).2.2.2.1 ":1.9"
  rw [h]
  decide

/-- C6: update reports an error exactly when no transport handle is held and none can be
obtained, and then issues no RPC; with a transport but no cached owner it returns
success without sending; with a cached owner it returns success and issues exactly one
RPC carrying the just-built message. -/
theorem C6_update_error_only_without_transport
    (uri_parse : Int → String → Option NMDnsServer) (gc : Option NMGlobalDnsConfig)
    (lst : List NMDnsConfigIPData) (cc : Bool) (s : St) :
    ((update uri_parse gc lst cc s).2.1 = false ↔
        s.dbus_connection = false ∧ cc = false) ∧
    (s.dbus_connection = false ∧ cc = false →
        countRpcSends (update uri_parse gc lst cc s).2.2 = 0) ∧
    ((s.dbus_connection = true ∨ cc = true) → s.name_owner = none →
        (update uri_parse gc lst cc s).2.1 = true ∧
        countRpcSends (update uri_parse gc lst cc s).2.2 = 0) ∧
    (∀ o, (s.dbus_connection = true ∨ cc = true) → s.name_owner = some o →
        (update uri_parse gc lst cc s).2.1 = true ∧
        sentMessages (update uri_parse gc lst cc s).2.2
          = [some (build_update_args uri_parse gc lst)]) := by
  obtain ⟨dc, ut, no, sub, lt, lo, la, nt, ca, ou⟩ := s
  cases dc <;> cases cc <;> cases sub <;> cases no <;> cases lt <;> cases ut <;>
    cases gc <;>
    simp [update, ensure_all_connected, send_dnsconfd_update, clear_update_cancellable]

/-- C6 witness: with a cached owner the update succeeds and sends the built message;
with no transport obtainable it fails. -/
theorem C6_witness :
    ((update nm_dns_uri_parse_model none [] true stOwnerKnown).2.1 = true ∧
      sentMessages (update nm_dns_uri_parse_model none [] true stOwnerKnown).2.2
        = [some (build_update_args nm_dns_uri_parse_model none [])]) ∧
    (update nm_dns_uri_parse_model none [] false init_state).2.1 = false :=
  ⟨(C6_update_error_only_without_transport nm_dns_uri_parse_model none [] true
      stOwnerKnown).2.2.2 ":1.5" (Or.inl rfl) rfl,
   (C6_update_error_only_without_transport nm_dns_uri_parse_model none [] false
      init_state).1.mpr ⟨rfl, rfl⟩⟩

/-- C10: a reported owner that, after normalizing the empty string to absent, equals the
cached owner is a complete no-op: the state is unchanged and no output (no send, no
pending notification) is produced, through the direct call, the signal path and the
lookup-completion path alike. -/
theorem C10_duplicate_owner_noop (uri_parse : Int → String → Option NMDnsServer)
    (s : St) (owner_raw : Option String) (tok : Nat)
    (h : nm_str_not_empty owner_raw = s.name_owner) :
    name_owner_changed owner_raw s = (s, []) ∧
    (∀ new_owner, nm_str_not_empty (some new_owner) = s.name_owner →
        step uri_parse (Event.ownerSignal new_owner) s = (s, [])) ∧
    (s.lookup_outstanding = some tok →
        step uri_parse (Event.lookupDone tok owner_raw) s
          = ({ s with lookup_outstanding := none }, [])) := by
  refine ⟨?_, ?_, ?_⟩
  · simp [name_owner_changed, h]
  · intro new_owner h2
    by_cases hsub : s.subscribed <;> simp [step, hsub, name_owner_changed, h2]
  · intro hl
    by_cases hcan : owner_raw = none ∧ tok ∈ s.cancelled <;>
      simp [step, hl, hcan, name_owner_changed, h]

/-- C10 witness: reporting the owner already cached leaves the state unchanged and
produces no output. -/
theorem C10_witness :
    name_owner_changed (some ":1.5") stOwnerKnown = (stOwnerKnown, []) ∧
    step nm_dns_uri_parse_model (Event.ownerSignal ":1.5") stOwnerKnown
      = (stOwnerKnown, []) :=
  ⟨(C10_duplicate_owner_noop nm_dns_uri_parse_model stOwnerKnown (some ":1.5") 0
      (by decide)).1,
   (C10_duplicate_owner_noop nm_dns_uri_parse_model stOwnerKnown (some ":1.5") 0
      (by decide)).2.1 ":1.5" (by decide)⟩

theorem tokenInv_congr (s s2 : St) (h : TokenInv s)
    (h1 : s2.update_token = s.update_token) (h2 : s2.outstanding = s.outstanding)
    (h3 : s2.cancelled = s.cancelled) (h4 : s2.next_token = s.next_token)
    (h5 : s2.lookup_token = s.lookup_token) : TokenInv s2 := by
  unfold TokenInv at *
  rw [h1, h2, h3, h4, h5]
  exact h

theorem tokenInv_clear_update (s : St) (h : TokenInv s) :
    TokenInv (clear_update_cancellable s) := by
  obtain ⟨h1, h2, h3, h4, h5, h6⟩ := h
  cases hu : s.update_token with
  | none =>
      have he : clear_update_cancellable s = s := by
        unfold clear_update_cancellable
        rw [hu]
      rw [he]
      exact ⟨h1, h2, h3, h4, h5, h6⟩
  | some u =>
      simp only [clear_update_cancellable, hu]
      refine ⟨?_, ?_, h3, h4, ?_, h6⟩
      · intro t ht hnc
        exfalso
        have hl : t ∉ s.cancelled := fun hc2 => hnc (List.mem_cons_of_mem _ hc2)
        have := h1 t ht hl
        rw [hu] at this
        exact hnc (Option.some.inj this ▸ List.mem_cons_self u s.cancelled)
      · intro t ht
        simp at ht
      · intro t ht
        rcases List.mem_cons.mp ht with rfl | ht2
        · exact h4 t (h2 t hu).1
        · exact h5 t ht2

theorem tokenInv_clear_lookup_of_no_update (s : St) (h : TokenInv s)
    (hu : s.update_token = none) : TokenInv (clear_lookup_cancellable s) := by
  obtain ⟨h1, h2, h3, h4, h5, h6⟩ := h
  cases hl : s.lookup_token with
  | none =>
      have he : clear_lookup_cancellable s = s := by
        unfold clear_lookup_cancellable
        rw [hl]
      rw [he]
      exact ⟨h1, h2, h3, h4, h5, h6⟩
  | some lt =>
      simp only [clear_lookup_cancellable, hl]
      refine ⟨?_, ?_, h3, h4, ?_, ?_⟩
      · intro t ht hnc
        exact h1 t ht fun hc2 => hnc (List.mem_cons_of_mem _ hc2)
      · intro t ht
        simp [hu] at ht
      · intro t ht
        rcases List.mem_cons.mp ht with rfl | ht2
        · exact h6 t hl
        · exact h5 t ht2
      · intro t ht
        simp at ht

theorem tokenInv_send (s : St) (h : TokenInv s) :
    TokenInv (send_dnsconfd_update s).1 := by
  rw [send_state]
  obtain ⟨h1, h2, h3, h4, h5, h6⟩ := tokenInv_clear_update s h
  simp only [clear_update_outstanding, clear_update_next_token,
    clear_update_lookup_token, clear_update_update_token] at h1 h2 h3 h4 h5 h6
  refine ⟨?_, ?_, ?_, ?_, ?_, ?_⟩
  · intro t ht hnc
    rcases List.mem_cons.mp ht with rfl | ht2
    · rfl
    · exact Option.noConfusion (h1 t ht2 hnc)
  · intro t ht
    have ht2 : t = s.next_token := (Option.some.inj ht).symm
    subst ht2
    refine ⟨List.mem_cons_self _ _, fun hc => ?_⟩
    exact absurd (h5 _ hc) (Nat.lt_irrefl _)
  · refine List.nodup_cons.mpr ⟨fun hmem => ?_, h3⟩
    exact absurd (h4 _ hmem) (Nat.lt_irrefl _)
  · intro t ht
    rcases List.mem_cons.mp ht with rfl | ht2
    · exact Nat.lt_succ_self _
    · exact Nat.lt_succ_of_lt (h4 t ht2)
  · intro t ht
    exact Nat.lt_succ_of_lt (h5 t ht)
  · intro t ht
    exact Nat.lt_succ_of_lt (h6 t ht)

theorem tokenInv_stop (s : St) (h : TokenInv s) : TokenInv (stop s) := by
  unfold stop
  have hc1 := tokenInv_clear_update s h
  have hc2 := tokenInv_clear_lookup_of_no_update _ hc1 (clear_update_update_token s)
  exact tokenInv_congr _ _ hc2 rfl rfl rfl rfl rfl

theorem ensure_state_tokens (cc : Bool) (s : St) :
    ((ensure_all_connected cc s).1.update_token = s.update_token ∧
     (ensure_all_connected cc s).1.outstanding = s.outstanding ∧
     (ensure_all_connected cc s).1.cancelled = s.cancelled) ∧
    (((ensure_all_connected cc s).1.lookup_token = s.lookup_token ∧
      (ensure_all_connected cc s).1.next_token = s.next_token) ∨
     ((ensure_all_connected cc s).1.lookup_token = some s.next_token ∧
      (ensure_all_connected cc s).1.next_token = s.next_token + 1)) := by
  obtain ⟨dc, ut, no, sub, lt, lo, la, nt, ca, ou⟩ := s
  cases dc <;> cases cc <;> cases sub <;> cases no <;> cases lt <;>
    simp [ensure_all_connected]

theorem tokenInv_ensure (cc : Bool) (s : St) (h : TokenInv s) :
    TokenInv (ensure_all_connected cc s).1 := by
  obtain ⟨⟨hu, ho, hc⟩, hrest⟩ := ensure_state_tokens cc s
  obtain ⟨h1, h2, h3, h4, h5, h6⟩ := h
  rcases hrest with ⟨hl, hn⟩ | ⟨hl, hn⟩
  · unfold TokenInv
    rw [hu, ho, hc, hl, hn]
    exact ⟨h1, h2, h3, h4, h5, h6⟩
  · unfold TokenInv
    rw [hu, ho, hc, hl, hn]
    refine ⟨h1, h2, h3, fun t ht => Nat.lt_succ_of_lt (h4 t ht),
      fun t ht => Nat.lt_succ_of_lt (h5 t ht), ?_⟩
    intro t ht
    have ht2 := Option.some.inj ht
    subst ht2
    exact Nat.lt_succ_self _

theorem tokenInv_update (uri_parse : Int → String → Option NMDnsServer)
    (gc : Option NMGlobalDnsConfig) (lst : List NMDnsConfigIPData) (cc : Bool) (s : St)
    (h : TokenInv s) : TokenInv (update uri_parse gc lst cc s).1 := by
  unfold update
  have hs1 : TokenInv
      { s with latest_update_args := some (build_update_args uri_parse gc lst) } :=
    tokenInv_congr s _ h rfl rfl rfl rfl rfl
  have h2 := tokenInv_ensure cc _ hs1
  simp only
  cases hr : (ensure_all_connected cc
      { s with latest_update_args := some (build_update_args uri_parse gc lst) }).2 with
  | fail => simpa using h2
  | wait => simpa using h2
  | success => simpa using tokenInv_send _ h2

theorem tokenInv_nameOwnerChanged (owner_raw : Option String) (s : St)
    (h : TokenInv s) : TokenInv (name_owner_changed owner_raw s).1 := by
  unfold name_owner_changed
  by_cases heq : s.name_owner = nm_str_not_empty owner_raw
  · simpa [heq] using h
  · cases hno : nm_str_not_empty owner_raw with
    | none =>
        rw [hno] at heq
        simp only [hno, if_neg heq]
        exact tokenInv_congr s _ h rfl rfl rfl rfl rfl
    | some o =>
        rw [hno] at heq
        simp only [hno, if_neg heq]
        exact tokenInv_send _ (tokenInv_congr s _ h rfl rfl rfl rfl rfl)

theorem tokenInv_erase (s : St) (tok : Nat) (h : TokenInv s) (hc : tok ∈ s.cancelled) :
    TokenInv { s with outstanding := s.outstanding.erase tok } := by
  obtain ⟨h1, h2, h3, h4, h5, h6⟩ := h
  refine ⟨?_, ?_, h3.erase tok, ?_, h5, h6⟩
  · intro t ht hnc
    exact h1 t (List.mem_of_mem_erase ht) hnc
  · intro t ht
    obtain ⟨hin, hnc⟩ := h2 t ht
    refine ⟨(List.mem_erase_of_ne fun he => hnc ?_).mpr hin, hnc⟩
    rw [he]
    exact hc
  · intro t ht
    exact h4 t (List.mem_of_mem_erase ht)

theorem tokenInv_erase_clear (s : St) (tok : Nat) (h : TokenInv s) :
    TokenInv (clear_update_cancellable { s with outstanding := s.outstanding.erase tok }) := by
  obtain ⟨h1, h2, h3, h4, h5, h6⟩ := h
  cases hu : s.update_token with
  | none =>
      simp only [clear_update_cancellable, hu]
      refine ⟨?_, ?_, h3.erase tok, ?_, h5, h6⟩
      · intro t ht hnc
        exact absurd (h1 t (List.mem_of_mem_erase ht) hnc) (by simp [hu])
      · intro t ht
        simp at ht
      · intro t ht
        exact h4 t (List.mem_of_mem_erase ht)
  | some u =>
      simp only [clear_update_cancellable, hu]
      refine ⟨?_, ?_, h3.erase tok, ?_, ?_, h6⟩
      · intro t ht hnc
        exfalso
        have hl : t ∉ s.cancelled := fun hc2 => hnc (List.mem_cons_of_mem _ hc2)
        have := h1 t (List.mem_of_mem_erase ht) hl
        rw [hu] at this
        exact hnc (Option.some.inj this ▸ List.mem_cons_self u s.cancelled)
      · intro t ht
        cases ht
      · intro t ht
        exact h4 t (List.mem_of_mem_erase ht)
      · intro t ht
        rcases List.mem_cons.mp ht with rfl | ht2
        · exact h4 t (h2 t hu).1
        · exact h5 t ht2

theorem tokenInv_step_updateDone (uri_parse : Int → String → Option NMDnsServer)
    (tok : Nat) (resp : Option RpcResponse) (errmsg : String) (s : St)
    (h : TokenInv s) : TokenInv (step uri_parse (Event.updateDone tok resp errmsg) s).1 := by
  by_cases ho : tok ∈ s.outstanding
  · by_cases hc : tok ∈ s.cancelled
    · simpa [step, ho, hc, update_done_state] using tokenInv_erase s tok h hc
    · simpa [step, ho, hc, update_done_state] using tokenInv_erase_clear s tok h
  · simpa [step, ho] using h

theorem tokenInv_step (uri_parse : Int → String → Option NMDnsServer) (e : Event)
    (s : St) (h : TokenInv s) : TokenInv (step uri_parse e s).1 := by
  cases e with
  | update gc lst cc => exact tokenInv_update uri_parse gc lst cc s h
  | ownerSignal new_owner =>
      by_cases hsub : s.subscribed
      · simpa [step, hsub] using tokenInv_nameOwnerChanged (some new_owner) s h
      · simpa [step, hsub] using h
  | lookupDone tok owner =>
      by_cases hl : s.lookup_outstanding = some tok
      · by_cases hcan : owner = none ∧ tok ∈ s.cancelled
        · simpa [step, hl, hcan] using tokenInv_congr s
            { s with lookup_outstanding := none } h rfl rfl rfl rfl rfl
        · simpa [step, hl, hcan] using tokenInv_nameOwnerChanged owner
            { s with lookup_outstanding := none }
            (tokenInv_congr s _ h rfl rfl rfl rfl rfl)
      · simpa [step, hl] using h
  | updateDone tok resp errmsg => exact tokenInv_step_updateDone uri_parse tok resp errmsg s h
  | stop => simpa [step] using tokenInv_stop s h

theorem tokenInv_init : TokenInv init_state := by
  unfold TokenInv init_state
  refine ⟨?_, ?_, ?_, ?_, ?_, ?_⟩ <;> simp

theorem tokenInv_run (uri_parse : Int → String → Option NMDnsServer) (es : List Event) :
    TokenInv (run uri_parse es) := by
  suffices h : ∀ s, TokenInv s →
      TokenInv (es.foldl (fun s2 e => (step uri_parse e s2).1) s) from
    h init_state tokenInv_init
  induction es with
  | nil => exact fun s hs => hs
  | cons e rest ih => exact fun s hs => ih _ (tokenInv_step uri_parse e s hs)

theorem length_le_one_of_forall_eq {l : List Nat} (hnd : l.Nodup)
    (hall : ∀ a ∈ l, ∀ b ∈ l, a = b) : l.length ≤ 1 := by
  match l with
  | [] => simp
  | [a] => simp
  | a :: b :: t =>
      exfalso
      have hab := hall a (by simp) b (by simp)
      subst hab
      rw [List.nodup_cons] at hnd
      exact hnd.1 (by simp)

theorem liveCalls_le_one (s : St) (h : TokenInv s) : (liveCalls s).length ≤ 1 := by
  obtain ⟨h1, h2, h3, h4, h5, h6⟩ := h
  refine length_le_one_of_forall_eq (h3.filter _) ?_
  intro a ha b hb
  simp only [liveCalls, List.mem_filter] at ha hb
  have hna : a ∉ s.cancelled := by
    simpa using ha.2
  have hnb : b ∉ s.cancelled := by
    simpa using hb.2
  have hua := h1 a ha.1 hna
  have hub := h1 b hb.1 hnb
  rw [hua] at hub
  exact Option.some.inj hub

/-- C4: over any event sequence, at most one issued RPC call is live (issued, not
completed, not cancelled) at any instant; each send first cancels the cancellable of its
own previous outstanding call and installs a fresh one; and the completion of a
cancelled call observes the cancellation and returns immediately, with no log, no
pending notification and no change to any plugin field. -/
theorem C4_single_outstanding_call (uri_parse : Int → String → Option NMDnsServer)
    (es : List Event) :
    (liveCalls (run uri_parse es)).length ≤ 1 ∧
    (∀ s2 t, s2.update_token = some t →
        (send_dnsconfd_update s2).1.cancelled = t :: s2.cancelled ∧
        (send_dnsconfd_update s2).1.update_token = some s2.next_token) ∧
    (∀ s2 tok resp errmsg, tok ∈ s2.cancelled → tok ∈ s2.outstanding →
        step uri_parse (Event.updateDone tok resp errmsg) s2
          = ({ s2 with outstanding := s2.outstanding.erase tok }, [])) := by
  refine ⟨liveCalls_le_one _ (tokenInv_run uri_parse es), ?_, ?_⟩
  · intro s2 t ht
    rw [send_state]
    exact ⟨by simp [clear_update_cancellable, ht], rfl⟩
  · intro s2 tok resp errmsg hc ho
    simp [step, ho, hc, dnsconfd_update_done]

/-- C4 witness: after an update, a successful owner lookup (which triggers a send) and a
second update (which cancels and resends), at most one call is live; and the completion
of the cancelled call 0 in a state where it was cancelled is a pure bookkeeping step
with no output. -/
theorem C4_witness :
    (liveCalls (run nm_dns_uri_parse_model
        [Event.update none [] true, Event.lookupDone 0 (some ":1.5"),
         Event.update none [] true])).length ≤ 1 ∧
    step nm_dns_uri_parse_model (Event.updateDone 0 none "err") stCancelled
      = ({ stCancelled with outstanding := stCancelled.outstanding.erase 0 }, []) :=
  ⟨(C4_single_outstanding_call nm_dns_uri_parse_model
      [Event.update none [] true, Event.lookupDone 0 (some ":1.5"),
       Event.update none [] true]).1,
   (C4_single_outstanding_call nm_dns_uri_parse_model []).2.2 stCancelled 0 none "err"
      (by decide) (by decide)⟩

theorem latestInv_of_le (s s2 : St) (h : LatestInv s)
    (hsub : s2.subscribed = true → s.subscribed = true)
    (hlt : s2.lookup_token.isSome = true → s.lookup_token.isSome = true)
    (hlo : s2.lookup_outstanding.isSome = true → s.lookup_outstanding.isSome = true)
    (hla : s2.latest_update_args = s.latest_update_args) : LatestInv s2 := by
  intro hcond
  rw [hla]
  apply h
  rcases hcond with h1 | h1 | h1
  · exact Or.inl (hsub h1)
  · exact Or.inr (Or.inl (hlt h1))
  · exact Or.inr (Or.inr (hlo h1))

theorem step_updateDone_fields (uri_parse : Int → String → Option NMDnsServer)
    (tok : Nat) (resp : Option RpcResponse) (errmsg : String) (s : St) :
    (step uri_parse (Event.updateDone tok resp errmsg) s).1.subscribed = s.subscribed ∧
    (step uri_parse (Event.updateDone tok resp errmsg) s).1.lookup_token
      = s.lookup_token ∧
    (step uri_parse (Event.updateDone tok resp errmsg) s).1.lookup_outstanding
      = s.lookup_outstanding ∧
    (step uri_parse (Event.updateDone tok resp errmsg) s).1.latest_update_args
      = s.latest_update_args := by
  by_cases ho : tok ∈ s.outstanding
  · by_cases hc : tok ∈ s.cancelled <;>
      simp [step, ho, hc, update_done_state]
  · simp [step, ho]

theorem latestInv_step (uri_parse : Int → String → Option NMDnsServer) (e : Event)
    (s : St) (h : LatestInv s) : LatestInv (step uri_parse e s).1 := by
  cases e with
  | update gc lst cc =>
      intro _
      rw [show (step uri_parse (Event.update gc lst cc) s).1
          = (update uri_parse gc lst cc s).1 from rfl, update_latest]
      rfl
  | ownerSignal new_owner =>
      by_cases hsub : s.subscribed
      · have hstep : (step uri_parse (Event.ownerSignal new_owner) s).1
            = (name_owner_changed (some new_owner) s).1 := by simp [step, hsub]
        rw [hstep]
        have hspec := name_owner_changed_spec (some new_owner) s
        refine latestInv_of_le s _ h ?_ ?_ ?_ hspec.1
        · rw [hspec.2.1]; exact id
        · rw [hspec.2.2.1]; exact id
        · rw [hspec.2.2.2.1]; exact id
      · have hstep : (step uri_parse (Event.ownerSignal new_owner) s).1 = s := by
          simp [step, hsub]
        rw [hstep]
        exact h
  | lookupDone tok owner =>
      by_cases hl : s.lookup_outstanding = some tok
      · by_cases hcan : owner = none ∧ tok ∈ s.cancelled
        · have hstep : (step uri_parse (Event.lookupDone tok owner) s).1
              = { s with lookup_outstanding := none } := by simp [step, hl, hcan]
          rw [hstep]
          exact latestInv_of_le s _ h id id (by simp) rfl
        · have hstep : (step uri_parse (Event.lookupDone tok owner) s).1
              = (name_owner_changed owner { s with lookup_outstanding := none }).1 := by
            simp [step, hl, hcan]
          rw [hstep]
          have hspec := name_owner_changed_spec owner
            { s with lookup_outstanding := none }
          refine latestInv_of_le s _ h ?_ ?_ ?_ ?_
          · rw [hspec.2.1]; exact id
          · rw [hspec.2.2.1]; exact id
          · rw [hspec.2.2.2.1]; simp
          · rw [hspec.1]
      · have hstep : (step uri_parse (Event.lookupDone tok owner) s).1 = s := by
          simp [step, hl]
        rw [hstep]
        exact h
  | updateDone tok resp errmsg =>
      obtain ⟨f1, f2, f3, f4⟩ := step_updateDone_fields uri_parse tok resp errmsg s
      refine latestInv_of_le s _ h ?_ ?_ ?_ f4
      · rw [f1]; exact id
      · rw [f2]; exact id
      · rw [f3]; exact id
  | stop =>
      refine latestInv_of_le s _ h ?_ ?_ ?_ ?_
      · intro h1
        rw [show (step uri_parse Event.stop s).1 = stop s from rfl] at h1
        simp at h1
      · intro h1
        rw [show (step uri_parse Event.stop s).1 = stop s from rfl] at h1
        simp at h1
      · intro h1
        rw [show (step uri_parse Event.stop s).1 = stop s from rfl] at h1
        rwa [stop_lookup_outstanding] at h1
      · exact stop_latest s

theorem latestInv_init : LatestInv init_state := by
  intro hcond
  rcases hcond with h1 | h1 | h1 <;> simp [init_state] at h1

theorem latestInv_run (uri_parse : Int → String → Option NMDnsServer) (es : List Event) :
    LatestInv (run uri_parse es) := by
  suffices h : ∀ s, LatestInv s →
      LatestInv (es.foldl (fun s2 e => (step uri_parse e s2).1) s) from
    h init_state latestInv_init
  induction es with
  | nil => exact fun s hs => hs
  | cons e rest ih => exact fun s hs => ih _ (latestInv_step uri_parse e s hs)

/-- C9: in every reachable state, while the ownership subscription or the owner lookup
exists a latest built message is retained, and any RPC issued from a reachable state
carries a present message — a transmission never carries an absent message. -/
theorem C9_retained_message_nonnull (uri_parse : Int → String → Option NMDnsServer)
    (es : List Event) :
    LatestInv (run uri_parse es) ∧
    (∀ e o m t, Output.rpcSend o m t ∈ (step uri_parse e (run uri_parse es)).2 →
        m.isSome = true) := by
  have hinv := latestInv_run uri_parse es
  refine ⟨hinv, ?_⟩
  intro e o m t hmem
  cases e with
  | update gc lst cc =>
      have hm := (update_sends uri_parse gc lst cc _ o m t hmem).2.2
      rw [hm, update_latest]
      rfl
  | ownerSignal new_owner =>
      by_cases hsub : (run uri_parse es).subscribed
      · simp only [step, if_pos hsub] at hmem
        have hm := ((name_owner_changed_spec (some new_owner)
          (run uri_parse es)).2.2.2.2.2.2 o m t hmem).2.2
        rw [hm]
        exact hinv (Or.inl hsub)
      · simp [step, hsub] at hmem
  | lookupDone tok owner =>
      by_cases hl : (run uri_parse es).lookup_outstanding = some tok
      · by_cases hcan : owner = none ∧ tok ∈ (run uri_parse es).cancelled
        · simp [step, hl, hcan] at hmem
        · simp [step, hl, hcan] at hmem
          have hm := ((name_owner_changed_spec owner
            { run uri_parse es with lookup_outstanding := none }).2.2.2.2.2.2
            o m t hmem).2.2
          rw [hm]
          exact hinv (Or.inr (Or.inr (by rw [hl]; rfl)))
      · simp [step, hl] at hmem
  | updateDone tok resp errmsg =>
      by_cases ho : tok ∈ (run uri_parse es).outstanding
      · simp only [step, if_pos ho] at hmem
        exact absurd (update_done_no_sends _ _ _ _)
          (mem_rpcSend_count_pos o m t _ hmem)
      · simp [step, ho] at hmem
  | stop => simp [step] at hmem

/-- C9 witness: one update while the daemon owner is unknown leaves the plugin
subscribed with a retained message, and the send triggered by the subsequent ownership
signal carries that present message. -/
theorem C9_witness :
    (run nm_dns_uri_parse_model [Event.update none [] true]).latest_update_args.isSome
      = true ∧
    (some { records := [], resolve_mode := 0 } : Option UpdateMessage).isSome = true :=
  ⟨(C9_retained_message_nonnull nm_dns_uri_parse_model
      [Event.update none [] true]).1 (Or.inl (by decide)),
   (C9_retained_message_nonnull nm_dns_uri_parse_model
      [Event.update none [] true]).2 (Event.ownerSignal ":1.9") (some ":1.9")
      (some { records := [], resolve_mode := 0 }) 1 (by decide)⟩

end Dnsconfd
